import Mathlib


/-!
Verification of the file-versioning manager (`manager.py`).

Shallow embedding conventions:
* Filenames and paths are `List Char` (`Str`), matching Python strings used
  by the program (which never relies on encoding details).
* `os.path.expanduser` resolution and configuration loading are external
  collaborators (spec §1, §6); configured folder paths are modelled as the
  already-expanded strings the handler works with.
* `time.time()` values are modelled as rationals, `datetime.now().strftime`
  output as an opaque date string parameter (`ts`), since wall-clock time is
  an environment input.
* The filesystem visible to `os.path.exists` / `shutil.move` is an
  association list from absolute path to a content identifier; `shutil.move`
  fails (raises) when the source is absent, modelling the move failures the
  code can encounter, and overwrites any file at the destination.
* Python regexes compiled by `prepare_patterns` are fixed-shape templates;
  each is embedded as a structural matcher whose success is the existence of
  the decomposition the regex describes (regex `\d` is modelled as ASCII
  digits, `.` as any character other than a newline, `$` as end of string).
-/

abbrev Str := List Char

def str (s : String) : Str := s.data

def isDigitCh (c : Char) : Bool := c.isDigit

/-- Decimal rendering of a natural number, as Python's `f"{counter}"`
produces (fuel-based recursion; fuel `n + 1` always suffices). -/
def natStrAux : Nat → Nat → Str
  | 0, _ => []
  | fuel + 1, n =>
    if n < 10 then [Nat.digitChar n]
    else natStrAux fuel (n / 10) ++ [Nat.digitChar (n % 10)]

def natStr (n : Nat) : Str := natStrAux (n + 1) n

def digitVal (c : Char) : Nat := c.toNat - 48

def valStr (l : Str) : Nat := l.foldl (fun a c => 10 * a + digitVal c) 0

/-- `str.endswith(suf)` on Python strings. -/
def endsWithL (suf l : Str) : Bool :=
  if suf.length ≤ l.length then l.drop (l.length - suf.length) == suf else false

/-! ### Path manipulation (`os.path` on POSIX) -/

/-- `os.path.basename`: the part of the path after the last slash. -/
def basename (p : Str) : Str :=
  (p.reverse.takeWhile (fun c => ! (c == '/'))).reverse

/-- `os.path.dirname`: everything up to the final slash, with trailing
slashes stripped from the head unless the head consists only of slashes. -/
def dirname (p : Str) : Str :=
  let head := p.take (p.length - (basename p).length)
  if head ≠ [] ∧ head.any (fun c => ! (c == '/')) then
    (head.reverse.dropWhile (fun c => c == '/')).reverse
  else head

/-- Python `"x".split(sep)` for a single-character separator. -/
def splitOnChar (sep : Char) (l : Str) : List Str :=
  l.foldr
    (fun ch acc =>
      if ch == sep then [] :: acc
      else
        match acc with
        | [] => [[ch]]
        | h :: t => (ch :: h) :: t)
    [[]]

/-- Python `"/".join(parts)`. -/
def joinSlash : List Str → Str
  | [] => []
  | [x] => x
  | x :: xs => x ++ '/' :: joinSlash xs

/-- `posixpath.normpath`: collapse empty and `.` components, resolve `..`
against earlier components, preserve the count of initial slashes (two
slashes are kept as two per POSIX). -/
def normpath (p : Str) : Str :=
  if p = [] then ['.']
  else
    let islashes : Nat :=
      if p.head? = some '/' then
        if p.take 2 = ['/', '/'] ∧ ¬ p.take 3 = ['/', '/', '/'] then 2 else 1
      else 0
    let comps := splitOnChar '/' p
    let newComps := comps.foldl
      (fun acc comp =>
        if comp = [] ∨ comp = ['.'] then acc
        else if ¬ comp = ['.', '.'] ∨ (islashes = 0 ∧ acc = [])
            ∨ (acc.getLast? = some ['.', '.']) then
          acc ++ [comp]
        else if acc = [] then acc
        else acc.dropLast)
      []
    let r := List.replicate islashes '/' ++ joinSlash newComps
    if r = [] then ['.'] else r

/-- `os.path.join(a, b)` for two arguments on POSIX. -/
def pjoin (a b : Str) : Str :=
  if b.head? = some '/' then b
  else if a = [] ∨ a.getLast? = some '/' then a ++ b
  else a ++ '/' :: b

/-- Index used by `os.path.splitext`: the last dot, provided some non-dot
character of the basename occurs before it (leading dots never start an
extension). `none` when the name has no extension. -/
def lastDotIdx (fn : Str) : Option Nat :=
  (List.range fn.length).reverse.find?
    (fun i =>
      (fn.getD i ' ' == '.') && (fn.take i).any (fun c => ! (c == '.')))

/-- `os.path.splitext` (for a bare filename, no directory part). -/
def splitext (fn : Str) : Str × Str :=
  match lastDotIdx fn with
  | some i => (fn.take i, fn.drop i)
  | none => (fn, [])

/-! ### Pattern compiler (`prepare_patterns`, manager.py lines 22-46)

Each compiled regex of `prepare_patterns` is a fixed template over the
escaped base filename (or its `splitext` parts); a constructor per template. -/

inductive VariantPattern where
  | chromeNum (base : Str)
  | copySuffix (n e : Str)
  | parenCounter (n e : Str)
  | sepDigits (n e : Str)
  | catchAll (n e : Str)
deriving DecidableEq

/-- Decidable search over all `take`/`drop` decompositions of `l`; a regex
sub-pattern such as `\d*` followed by a literal matches exactly when some
decomposition satisfies the two parts. -/
def splitsAny (l : Str) (p : Str → Str → Bool) : Bool :=
  (List.range (l.length + 1)).any (fun i => p (l.take i) (l.drop i))

/-- Regex `^\((\d+)\)<base>$` (Chrome download variant). -/
def matchChromeNum (base fn : Str) : Bool :=
  match fn with
  | '(' :: t =>
    splitsAny t (fun ds rest =>
      decide (0 < ds.length) && ds.all isDigitCh && rest == ')' :: base)
  | _ => false

/-- Regex `^<n>[ _-]copy\d*<e>$`. -/
def matchCopySuffix (n e fn : Str) : Bool :=
  (fn.take n.length == n) &&
  (match fn.drop n.length with
   | s :: 'c' :: 'o' :: 'p' :: 'y' :: r =>
     (s == ' ' || s == '_' || s == '-') &&
     splitsAny r (fun ds rest => ds.all isDigitCh && rest == e)
   | _ => false)

/-- Regex `^<n> \((\d+)\)<e>$`. -/
def matchParenCounter (n e fn : Str) : Bool :=
  (fn.take n.length == n) &&
  (match fn.drop n.length with
   | ' ' :: '(' :: r =>
     splitsAny r (fun ds rest =>
       decide (0 < ds.length) && ds.all isDigitCh && rest == ')' :: e)
   | _ => false)

/-- Regex `^<n>[ _-]\d+<e>$`. -/
def matchSepDigits (n e fn : Str) : Bool :=
  (fn.take n.length == n) &&
  (match fn.drop n.length with
   | s :: r =>
     (s == ' ' || s == '_' || s == '-') &&
     splitsAny r (fun ds rest =>
       decide (0 < ds.length) && ds.all isDigitCh && rest == e)
   | _ => false)

/-- Regex `^.*<n>.*<e>$` (catch-all; `.` excludes newline). -/
def matchCatchAll (n e fn : Str) : Bool :=
  splitsAny fn (fun a r =>
    a.all (fun c => ! (c == '\n')) && (r.take n.length == n) &&
    splitsAny (r.drop n.length) (fun b rest =>
      b.all (fun c => ! (c == '\n')) && rest == e))

def patMatches : VariantPattern → Str → Bool
  | .chromeNum b, fn => matchChromeNum b fn
  | .copySuffix n e, fn => matchCopySuffix n e fn
  | .parenCounter n e, fn => matchParenCounter n e fn
  | .sepDigits n e, fn => matchSepDigits n e fn
  | .catchAll n e, fn => matchCatchAll n e fn

/-- The five `(pattern, base_filename)` pairs compiled for one base filename,
in source order (manager.py lines 33-44). -/
def patternsForBase (base : Str) : List (VariantPattern × Str) :=
  let n := (splitext base).1
  let e := (splitext base).2
  [(VariantPattern.chromeNum base, base),
   (VariantPattern.copySuffix n e, base),
   (VariantPattern.parenCounter n e, base),
   (VariantPattern.sepDigits n e, base),
   (VariantPattern.catchAll n e, base)]

/-- Per-folder pattern list: `extend` over the folder's base filenames. -/
def patternsForFolder (bases : List Str) : List (VariantPattern × Str) :=
  bases.foldl (fun acc b => acc ++ patternsForBase b) []

structure FolderCfg where
  path : Str
  bases : List Str

structure Config where
  folders : List FolderCfg

/-- Python dict assignment semantics for an association list. -/
def dictSet (m : List (Str × List (VariantPattern × Str))) (k : Str)
    (v : List (VariantPattern × Str)) : List (Str × List (VariantPattern × Str)) :=
  (k, v) :: m.filter (fun kv => ! (kv.1 == k))

/-- `self.file_patterns.get(folder_path, [])`. -/
def dictGet (m : List (Str × List (VariantPattern × Str))) (k : Str) :
    List (VariantPattern × Str) :=
  match m.find? (fun kv => kv.1 == k) with
  | some kv => kv.2
  | none => []

/-- `prepare_patterns`: builds `self.file_patterns`, a dict from folder path
to its compiled pattern list (a later folder entry with the same path
resets the key, as `self.file_patterns[folder_path] = []` does). -/
def preparePatterns (folders : List FolderCfg) :
    List (Str × List (VariantPattern × Str)) :=
  folders.foldl (fun acc fc => dictSet acc fc.path (patternsForFolder fc.bases)) []

/-! ### Filesystem model and the versioning engine (`version_files`) -/

/-- The filesystem as seen through `os.path.exists` and `shutil.move`:
an association list from absolute path to a content identifier. -/
abbrev FS := List (Str × Nat)

def fsExists (fs : FS) (p : Str) : Bool := fs.any (fun kv => kv.1 == p)

def fsLookup (fs : FS) (p : Str) : Option Nat :=
  (fs.find? (fun kv => kv.1 == p)).map (fun kv => kv.2)

def fsErase (fs : FS) (p : Str) : FS := fs.filter (fun kv => ! (kv.1 == p))

/-- `shutil.move(src, dst)`: raises (modelled as `Except.error src`) when the
source does not exist; otherwise the content moves to `dst`, replacing any
file previously at `dst`. -/
def fsMove (fs : FS) (src dst : Str) : Except Str FS :=
  match fsLookup fs src with
  | none => Except.error src
  | some c => Except.ok ((dst, c) :: fsErase (fsErase fs src) dst)

inductive LogLine where
  | versioned (oldName newName : Str)
  | updated (oldName newName : Str)
deriving DecidableEq

/-- Candidate archive filename number `k`: `f"{name}_v{timestamp}{ext}"` for
`k = 0`, `f"{name}_v{timestamp}_{k}{ext}"` for `k ≥ 1`. -/
def versionedName (n ts e : Str) (k : Nat) : Str :=
  if k = 0 then n ++ str "_v" ++ ts ++ e
  else n ++ str "_v" ++ ts ++ str "_" ++ natStr k ++ e

/-- First index at or after `k` whose candidate is unoccupied, probing with
the given fuel (the `while os.path.exists(versioned_path)` loop; fuel
`fs.length + 1` provably suffices, see `chooseIdx_spec`). -/
def probeIdx (occ : Nat → Bool) : Nat → Nat → Nat
  | 0, k => k
  | fuel + 1, k => if occ k then probeIdx occ fuel (k + 1) else k

def probeCand (folder n ts e : Str) (i : Nat) : Str :=
  pjoin folder (versionedName n ts e i)

/-- The candidate number `version_files` settles on for the archive name. -/
def chooseIdx (fs : FS) (folder n ts e : Str) : Nat :=
  probeIdx (fun i => fsExists fs (probeCand folder n ts e i)) (fs.length + 1) 0

/-- `version_files` (manager.py lines 96-120): archive an existing incumbent
at the base path under a free date-stamped name, then move the incoming file
onto the base path. Returns the new filesystem, the moves performed in
order, and the log lines printed; a failing move propagates as an
exception (`Except.error` with the offending source path). -/
def versionFiles (fs : FS) (folder filePath filename base ts : Str) :
    Except Str (FS × List (Str × Str) × List LogLine) :=
  let basePath := pjoin folder base
  if fsExists fs basePath then
    let n := (splitext base).1
    let e := (splitext base).2
    let k := chooseIdx fs folder n ts e
    let vfn := versionedName n ts e k
    let vp := pjoin folder vfn
    match fsMove fs basePath vp with
    | Except.error p => Except.error p
    | Except.ok fs1 =>
      match fsMove fs1 filePath basePath with
      | Except.error p => Except.error p
      | Except.ok fs2 =>
        Except.ok (fs2, [(basePath, vp), (filePath, basePath)],
          [LogLine.versioned base vfn, LogLine.updated filename base])
  else
    match fsMove fs filePath basePath with
    | Except.error p => Except.error p
    | Except.ok fs1 =>
      Except.ok (fs1, [(filePath, basePath)], [LogLine.updated filename base])

/-! ### Match resolver and event handling -/

/-- Regex `_v\d{4}-\d{2}-\d{2}` tested at one position. -/
def markerAt : Str → Bool
  | '_' :: 'v' :: a :: b :: c :: d :: '-' :: e1 :: e2 :: '-' :: f1 :: f2 :: _ =>
    isDigitCh a && isDigitCh b && isDigitCh c && isDigitCh d &&
    isDigitCh e1 && isDigitCh e2 && isDigitCh f1 && isDigitCh f2
  | _ => false

/-- `re.search(r'_v\d{4}-\d{2}-\d{2}', filename)`: the marker occurs at some
position of the filename. -/
def hasVersionMarker (fn : Str) : Bool :=
  (List.range fn.length).any (fun i => markerAt (fn.drop i))

/-- `check_file_match` (manager.py lines 82-94) as a resolver: `some b` when
the code would call `version_files` with base filename `b`, `none` when it
would do nothing. The loop acts on the first matching pattern and `break`s
in every matched case. -/
def checkFileMatch (pats : List (VariantPattern × Str)) (fn : Str) : Option Str :=
  if hasVersionMarker fn then none
  else
    match pats.find? (fun pb => patMatches pb.1 fn) with
    | some pb => if fn ≠ pb.2 then some pb.2 else none
    | none => none

abbrev DebMap := List (Str × ℚ)

def mapLookup (m : DebMap) (p : Str) : Option ℚ :=
  (m.find? (fun kv => kv.1 == p)).map (fun kv => kv.2)

def mapSet (m : DebMap) (p : Str) (t : ℚ) : DebMap :=
  (p, t) :: m.filter (fun kv => ! (kv.1 == p))

/-- `self.cooldown = 2` (seconds). -/
def cooldown : ℚ := 2

/-- The debounce fragment of `process_file_event` (manager.py lines 56-65):
`false` with the map untouched when the path was processed less than
`cooldown` ago, otherwise `true` with the path's entry upserted to `now`. -/
def debounceCheck (m : DebMap) (p : Str) (now : ℚ) : Bool × DebMap :=
  match mapLookup m p with
  | some t => if now - t < cooldown then (false, m) else (true, mapSet m p now)
  | none => (true, mapSet m p now)

/-- The folder loop of `process_file_event` (lines 75-80): every configured
folder whose normalized path equals the event directory runs
`check_file_match`, and a match runs `version_files`; filesystem effects
accumulate across iterations, errors propagate. -/
def folderLoop (patsD : List (Str × List (VariantPattern × Str)))
    (filePath fn dirp ts : Str) :
    List FolderCfg → FS → List (Str × Str) → List LogLine →
    Except Str (FS × List (Str × Str) × List LogLine)
  | [], fs, mv, lg => Except.ok (fs, mv, lg)
  | fc :: rest, fs, mv, lg =>
    if normpath dirp == normpath fc.path then
      match checkFileMatch (dictGet patsD fc.path) fn with
      | some b =>
        match versionFiles fs fc.path filePath fn b ts with
        | Except.error p => Except.error p
        | Except.ok (fs2, mv2, lg2) =>
          folderLoop patsD filePath fn dirp ts rest fs2 (mv ++ mv2) (lg ++ lg2)
      | none => folderLoop patsD filePath fn dirp ts rest fs mv lg
    else folderLoop patsD filePath fn dirp ts rest fs mv lg

/-- `process_file_event` after the debounce step (lines 67-80): temporary
files (dotfiles and in-progress downloads) are dropped before matching. -/
def processAfterDebounce (cfg : Config) (m : DebMap) (fs : FS)
    (filePath ts : Str) :
    Except Str (DebMap × FS × List (Str × Str) × List LogLine) :=
  let dirp := dirname filePath
  let fn := basename filePath
  if (fn.head? == some '.') || endsWithL (str ".crdownload") fn
      || endsWithL (str ".download") fn then
    Except.ok (m, fs, [], [])
  else
    match folderLoop (preparePatterns cfg.folders) filePath fn dirp ts
        cfg.folders fs [] [] with
    | Except.error p => Except.error p
    | Except.ok (fs2, mv, lg) => Except.ok (m, fs2, mv, lg)

/-- `process_file_event` (manager.py lines 56-80). -/
def processFileEvent (cfg : Config) (st : DebMap) (fs : FS)
    (filePath : Str) (now : ℚ) (ts : Str) :
    Except Str (DebMap × FS × List (Str × Str) × List LogLine) :=
  match debounceCheck st filePath now with
  | (false, m) => Except.ok (m, fs, [], [])
  | (true, m) => processAfterDebounce cfg m fs filePath ts

structure FsEvent where
  isDirectory : Bool
  srcPath : Str
  destPath : Str

/-- `on_created` (lines 48-50): directories are ignored entirely. -/
def onCreated (cfg : Config) (st : DebMap) (fs : FS) (ev : FsEvent)
    (now : ℚ) (ts : Str) :
    Except Str (DebMap × FS × List (Str × Str) × List LogLine) :=
  if ev.isDirectory then Except.ok (st, fs, [], [])
  else processFileEvent cfg st fs ev.srcPath now ts

/-- `on_moved` (lines 52-54): directories are ignored; files are processed
at their destination path. -/
def onMoved (cfg : Config) (st : DebMap) (fs : FS) (ev : FsEvent)
    (now : ℚ) (ts : Str) :
    Except Str (DebMap × FS × List (Str × Str) × List LogLine) :=
  if ev.isDirectory then Except.ok (st, fs, [], [])
  else processFileEvent cfg st fs ev.destPath now ts

/-! ### Claim theorems -/

/-- The archive path `version_files` picks (the probe's chosen candidate for
the `splitext` parts of the base filename). -/
def archCand (fs : FS) (folder base ts : Str) : Str :=
  probeCand folder (splitext base).1 ts (splitext base).2
    (chooseIdx fs folder (splitext base).1 ts (splitext base).2)

/-- Filesystem state between the two moves of `version_files`: the ok-value
of `fsMove fs basePath archivePath` when the incumbent has content `c0`. -/
def afterArchive (fs : FS) (folder base ts : Str) (c0 : Nat) : FS :=
  (archCand fs folder base ts, c0)
    :: fsErase (fsErase fs (pjoin folder base)) (archCand fs folder base ts)

/-- Filesystem state after both moves of `version_files`. -/
def afterPromote (fs : FS) (folder base ts filePath : Str) (c0 c1 : Nat) : FS :=
  (pjoin folder base, c1)
    :: fsErase (fsErase (afterArchive fs folder base ts c0) filePath)
        (pjoin folder base)

/-! ### Theorems -/

/-!
Verification of the file-versioning manager (`manager.py`).

Shallow embedding conventions:
* Filenames and paths are `List Char` (`Str`), matching Python strings used
  by the program (which never relies on encoding details).
* `os.path.expanduser` resolution and configuration loading are external
  collaborators (spec §1, §6); configured folder paths are modelled as the
  already-expanded strings the handler works with.
* `time.time()` values are modelled as rationals, `datetime.now().strftime`
  output as an opaque date string parameter (`ts`), since wall-clock time is
  an environment input.
* The filesystem visible to `os.path.exists` / `shutil.move` is an
  association list from absolute path to a content identifier; `shutil.move`
  fails (raises) when the source is absent, modelling the move failures the
  code can encounter, and overwrites any file at the destination.
* Python regexes compiled by `prepare_patterns` are fixed-shape templates;
  each is embedded as a structural matcher whose success is the existence of
  the decomposition the regex describes (regex `\d` is modelled as ASCII
  digits, `.` as any character other than a newline, `$` as end of string).
-/

theorem digitVal_digitChar {n : Nat} (h : n < 10) :
    digitVal (Nat.digitChar n) = n := by
  interval_cases n <;> rfl

theorem foldl_natStrAux (fuel : Nat) :
    ∀ n a, n < 10 ^ fuel →
      List.foldl (fun a c => 10 * a + digitVal c) a (natStrAux fuel n)
        = a * 10 ^ (natStrAux fuel n).length + n := by
  induction fuel with
  | zero =>
    intro n a h
    simp at h
    simp [natStrAux, h]
  | succ fuel ih =>
    intro n a h
    by_cases h10 : n < 10
    · simp [natStrAux, h10, digitVal_digitChar h10]
      ring
    · have hdiv : n / 10 < 10 ^ fuel := by
        rw [Nat.div_lt_iff_lt_mul (by norm_num)]
        calc n < 10 ^ (fuel + 1) := h
        _ = 10 ^ fuel * 10 := by ring
      simp only [natStrAux, if_neg h10, List.foldl_append, List.length_append]
      rw [ih (n / 10) a hdiv]
      simp [digitVal_digitChar (Nat.mod_lt n (by norm_num))]
      have : 10 * (n / 10) + n % 10 = n := Nat.div_add_mod n 10
      ring_nf
      omega

theorem lt_ten_pow_succ (n : Nat) : n < 10 ^ (n + 1) := by
  have h1 : n < 2 ^ n := Nat.lt_two_pow n
  have h2 : 2 ^ n ≤ 10 ^ n := Nat.pow_le_pow_left (by norm_num) n
  have h3 : 10 ^ n < 10 ^ (n + 1) := by
    have := Nat.pow_lt_pow_succ (a := 10) (by norm_num) (n := n)
    exact this
  omega

theorem valStr_natStr (n : Nat) : valStr (natStr n) = n := by
  have := foldl_natStrAux (n + 1) n 0 (lt_ten_pow_succ n)
  simpa [valStr, natStr] using this

theorem natStr_inj {m n : Nat} (h : natStr m = natStr n) : m = n := by
  have := valStr_natStr m
  rw [h, valStr_natStr] at this
  omega

/-! ### Path manipulation (`os.path` on POSIX) -/

theorem splitext_append (fn : Str) :
    (splitext fn).1 ++ (splitext fn).2 = fn := by
  unfold splitext
  cases h : lastDotIdx fn with
  | none => simp
  | some i => simp [List.take_append_drop]

theorem lastDotIdx_pos {fn : Str} {i : Nat} (h : lastDotIdx fn = some i) :
    1 ≤ i ∧ i < fn.length := by
  have hp := List.find?_some h
  have hm := List.mem_of_find?_eq_some h
  rw [List.mem_reverse, List.mem_range] at hm
  refine ⟨?_, hm⟩
  by_contra hlt
  have : i = 0 := by omega
  subst this
  simp at hp

theorem splitext_fst_ne_nil {fn : Str} (h : fn ≠ []) :
    (splitext fn).1 ≠ [] := by
  unfold splitext
  cases hidx : lastDotIdx fn with
  | none => simpa
  | some i =>
    obtain ⟨h1, h2⟩ := lastDotIdx_pos hidx
    simp only
    intro hc
    have hlen := congrArg List.length hc
    rw [List.length_take] at hlen
    have : min i fn.length = 0 := by simpa using hlen
    rw [Nat.min_eq_zero_iff] at this
    omega

theorem splitext_fst_nil {fn : Str} (h : (splitext fn).1 = []) : fn = [] := by
  by_contra hfn
  exact splitext_fst_ne_nil hfn h

theorem splitext_fst_head (fn : Str) :
    ((splitext fn).1).head? = fn.head? := by
  unfold splitext
  cases hidx : lastDotIdx fn with
  | none => rfl
  | some i =>
    obtain ⟨h1, _⟩ := lastDotIdx_pos hidx
    simp only
    cases fn with
    | nil => simp
    | cons a t =>
      cases i with
      | zero => omega
      | succ j => simp [List.take]

/-! ### Association-list lemmas -/

theorem fsExists_cons (kv : Str × Nat) (fs : FS) (p : Str) :
    fsExists (kv :: fs) p = ((kv.1 == p) || fsExists fs p) := by
  simp [fsExists, List.any_cons]

theorem fsLookup_cons (kv : Str × Nat) (fs : FS) (p : Str) :
    fsLookup (kv :: fs) p = if kv.1 = p then some kv.2 else fsLookup fs p := by
  by_cases h : kv.1 = p
  · rw [fsLookup, List.find?_cons_of_pos _ (by simp [h])]
    simp [h]
  · rw [fsLookup, List.find?_cons_of_neg _ (by simp [h])]
    simp [fsLookup, h]

theorem fsErase_cons (kv : Str × Nat) (fs : FS) (q : Str) :
    fsErase (kv :: fs) q =
      if kv.1 = q then fsErase fs q else kv :: fsErase fs q := by
  by_cases h : kv.1 = q <;> simp [fsErase, List.filter_cons, h]

theorem fsExists_iff_mem {fs : FS} {p : Str} :
    fsExists fs p = true ↔ p ∈ fs.map Prod.fst := by
  simp [fsExists, List.any_eq_true, List.mem_map, beq_iff_eq]

theorem fsExists_of_fsLookup {fs : FS} {p : Str} {c : Nat}
    (h : fsLookup fs p = some c) : fsExists fs p = true := by
  induction fs with
  | nil => simp [fsLookup] at h
  | cons kv rest ih =>
    rw [fsLookup_cons] at h
    rw [fsExists_cons]
    by_cases hk : kv.1 = p
    · simp [hk]
    · rw [if_neg hk] at h
      simp [ih h]

theorem fsLookup_of_fsExists {fs : FS} {p : Str}
    (h : fsExists fs p = true) : ∃ c, fsLookup fs p = some c := by
  induction fs with
  | nil => simp [fsExists] at h
  | cons kv rest ih =>
    rw [fsExists_cons] at h
    rw [fsLookup_cons]
    by_cases hk : kv.1 = p
    · exact ⟨kv.2, by rw [if_pos hk]⟩
    · rw [if_neg hk]
      apply ih
      simpa [beq_iff_eq, hk] using h

theorem fsLookup_fsErase_ne {fs : FS} {p q : Str} (h : p ≠ q) :
    fsLookup (fsErase fs q) p = fsLookup fs p := by
  induction fs with
  | nil => rfl
  | cons kv rest ih =>
    rw [fsErase_cons, fsLookup_cons]
    by_cases hk : kv.1 = q
    · rw [if_pos hk, ih]
      have : ¬ kv.1 = p := by rw [hk]; exact fun he => h he.symm
      rw [if_neg this]
    · rw [if_neg hk, fsLookup_cons, ih]

theorem fsExists_fsErase_self (fs : FS) (p : Str) :
    fsExists (fsErase fs p) p = false := by
  induction fs with
  | nil => rfl
  | cons kv rest ih =>
    rw [fsErase_cons]
    by_cases hk : kv.1 = p
    · rwa [if_pos hk]
    · rw [if_neg hk, fsExists_cons]
      simp [beq_iff_eq, hk, ih]

theorem fsExists_fsErase_of_false {fs : FS} {p : Str} (q : Str)
    (h : fsExists fs p = false) : fsExists (fsErase fs q) p = false := by
  induction fs with
  | nil => rfl
  | cons kv rest ih =>
    rw [fsExists_cons, Bool.or_eq_false_iff] at h
    rw [fsErase_cons]
    by_cases hk : kv.1 = q
    · rw [if_pos hk]
      exact ih h.2
    · rw [if_neg hk, fsExists_cons, h.1, ih h.2]
      rfl

theorem fsLookup_cons_self (fs : FS) (p : Str) (c : Nat) :
    fsLookup ((p, c) :: fs) p = some c := by
  rw [fsLookup_cons]
  simp

theorem fsLookup_cons_ne (fs : FS) {p q : Str} (c : Nat) (h : q ≠ p) :
    fsLookup ((q, c) :: fs) p = fsLookup fs p := by
  rw [fsLookup_cons]
  simp [h]

theorem fsExists_cons_ne (fs : FS) {p q : Str} (c : Nat) (h : q ≠ p) :
    fsExists ((q, c) :: fs) p = fsExists fs p := by
  rw [fsExists_cons]
  simp [beq_iff_eq, h]

theorem mapLookup_mapSet_self (m : DebMap) (p : Str) (t : ℚ) :
    mapLookup (mapSet m p t) p = some t := by
  simp [mapLookup, mapSet, List.find?]

/-! ### Probe-loop correctness -/

theorem probeIdx_free (occ : Nat → Bool) :
    ∀ fuel k, (∃ j, j < fuel ∧ occ (k + j) = false) →
      occ (probeIdx occ fuel k) = false := by
  intro fuel
  induction fuel with
  | zero => rintro k ⟨j, hj, _⟩; omega
  | succ fuel ih =>
    rintro k ⟨j, hj, hocc⟩
    by_cases h : occ k
    · simp only [probeIdx, if_pos h]
      apply ih
      cases j with
      | zero => rw [Nat.add_zero] at hocc; rw [hocc] at h; simp at h
      | succ j' => exact ⟨j', by omega, by rw [show k + 1 + j' = k + (j' + 1) by omega]; exact hocc⟩
    · simp only [probeIdx, if_neg h]
      simpa using h

theorem probeIdx_min (occ : Nat → Bool) :
    ∀ fuel k i, k ≤ i → i < probeIdx occ fuel k → occ i = true := by
  intro fuel
  induction fuel with
  | zero =>
    intro k i hk hi
    simp only [probeIdx] at hi
    omega
  | succ fuel ih =>
    intro k i hk hi
    by_cases h : occ k
    · simp only [probeIdx, if_pos h] at hi
      rcases Nat.eq_or_lt_of_le hk with he | hl
      · rw [← he]; exact h
      · exact ih (k + 1) i hl hi
    · simp only [probeIdx, if_neg h] at hi
      omega

/-! ### Distinctness of archive-name candidates -/

theorem versionedName_length (n ts e : Str) (k : Nat) :
    (versionedName n ts e k).length =
      n.length + 2 + ts.length + e.length
        + (if k = 0 then 0 else 1 + (natStr k).length) := by
  by_cases h : k = 0 <;>
    simp [versionedName, h, List.length_append, str] <;> omega

theorem versionedName_inj {n ts e : Str} {i j : Nat}
    (h : versionedName n ts e i = versionedName n ts e j) : i = j := by
  by_cases hi : i = 0 <;> by_cases hj : j = 0
  · rw [hi, hj]
  · exfalso
    have := congrArg List.length h
    rw [versionedName_length, versionedName_length] at this
    simp [hi, hj] at this
  · exfalso
    have := congrArg List.length h
    rw [versionedName_length, versionedName_length] at this
    simp [hi, hj] at this
  · simp only [versionedName, if_neg hi, if_neg hj, List.append_assoc] at h
    have h1 := List.append_cancel_left h
    have h2 := List.append_cancel_left h1
    have h3 := List.append_cancel_left h2
    have h4 := List.append_cancel_left h3
    exact natStr_inj (List.append_cancel_right h4)

theorem versionedName_head (n ts e : Str) (k : Nat) :
    (versionedName n ts e k).head? = (n ++ ['_']).head? := by
  by_cases h : k = 0 <;> cases n <;>
    simp [versionedName, h, str]

/-- Injectivity of `os.path.join` in its second argument, given agreement on
whether the two names are absolute. -/
theorem pjoin_inj {f x y : Str}
    (hs : x.head? = some '/' ↔ y.head? = some '/')
    (h : pjoin f x = pjoin f y) : x = y := by
  unfold pjoin at h
  by_cases hx : x.head? = some '/'
  · rw [if_pos hx, if_pos (hs.mp hx)] at h
    exact h
  · have hy : ¬ y.head? = some '/' := fun hc => hx (hs.mpr hc)
    rw [if_neg hx, if_neg hy] at h
    by_cases hf : f = [] ∨ f.getLast? = some '/'
    · rw [if_pos hf, if_pos hf] at h
      exact List.append_cancel_left h
    · rw [if_neg hf, if_neg hf] at h
      have h2 : '/' :: x = '/' :: y := List.append_cancel_left h
      injection h2

theorem probeCand_inj {folder n ts e : Str} {i j : Nat}
    (h : probeCand folder n ts e i = probeCand folder n ts e j) : i = j := by
  unfold probeCand at h
  have hs : (versionedName n ts e i).head? = some '/'
      ↔ (versionedName n ts e j).head? = some '/' := by
    rw [versionedName_head, versionedName_head]
  exact versionedName_inj (pjoin_inj hs h)

/-- Pigeonhole: among `fs.length + 1` pairwise-distinct candidate paths at
least one is not a key of `fs`. -/
theorem exists_free_cand (fs : FS) (folder n ts e : Str) :
    ∃ j, j ≤ fs.length ∧ fsExists fs (probeCand folder n ts e j) = false := by
  by_contra hc
  push_neg at hc
  have hall : ∀ j, j ≤ fs.length →
      fsExists fs (probeCand folder n ts e j) = true := by
    intro j hj
    have := hc j hj
    cases hb : fsExists fs (probeCand folder n ts e j) with
    | false => exact absurd hb this
    | true => rfl
  have hsub : (Finset.range (fs.length + 1)).image (probeCand folder n ts e)
      ⊆ (fs.map Prod.fst).toFinset := by
    intro x hx
    rw [Finset.mem_image] at hx
    obtain ⟨j, hj, rfl⟩ := hx
    rw [Finset.mem_range] at hj
    rw [List.mem_toFinset]
    exact fsExists_iff_mem.mp (hall j (by omega))
  have hcard := Finset.card_le_card hsub
  rw [Finset.card_image_of_injOn (fun a _ b _ hab => probeCand_inj hab),
    Finset.card_range] at hcard
  have := List.toFinset_card_le (fs.map Prod.fst)
  rw [List.length_map] at this
  omega

/-- The archive name `version_files` settles on is free, every
lower-numbered candidate is occupied, and the candidate number is bounded by
the number of existing files (hence the probe loop terminates). -/
theorem chooseIdx_spec (fs : FS) (folder n ts e : Str) :
    fsExists fs (probeCand folder n ts e (chooseIdx fs folder n ts e)) = false
    ∧ (∀ j, j < chooseIdx fs folder n ts e →
        fsExists fs (probeCand folder n ts e j) = true)
    ∧ chooseIdx fs folder n ts e ≤ fs.length := by
  obtain ⟨j, hj, hfree⟩ := exists_free_cand fs folder n ts e
  have hfreeP : fsExists fs
      (probeCand folder n ts e (chooseIdx fs folder n ts e)) = false := by
    have := probeIdx_free (fun i => fsExists fs (probeCand folder n ts e i))
      (fs.length + 1) 0 ⟨j, by omega, by simpa using hfree⟩
    simpa [chooseIdx] using this
  have hmin : ∀ i, i < chooseIdx fs folder n ts e →
      fsExists fs (probeCand folder n ts e i) = true := by
    intro i hi
    have := probeIdx_min (fun i => fsExists fs (probeCand folder n ts e i))
      (fs.length + 1) 0 i (Nat.zero_le i) (by simpa [chooseIdx] using hi)
    simpa using this
  refine ⟨hfreeP, hmin, ?_⟩
  by_contra hgt
  push_neg at hgt
  exact absurd (hmin j (by omega)) (by rw [hfree]; simp)

/-- The archive path differs from the base path: the versioned filename is
strictly longer than the base filename, and `os.path.join` preserves the
difference. -/
theorem probeCand_ne_base (folder base ts : Str) (k : Nat) :
    probeCand folder (splitext base).1 ts (splitext base).2 k
      ≠ pjoin folder base := by
  intro h
  set n := (splitext base).1 with hn
  set e := (splitext base).2 with he
  have hbase : n ++ e = base := splitext_append base
  have hs : (versionedName n ts e k).head? = some '/' ↔ base.head? = some '/' := by
    rw [versionedName_head]
    cases hcn : n with
    | nil =>
      have : base = [] := splitext_fst_nil (by rw [← hn, hcn])
      simp [this]
    | cons a t =>
      have : base.head? = some a := by
        rw [← hbase, hcn]
        simp
      simp [this]
  have heq := pjoin_inj hs h
  have hlen := congrArg List.length heq
  rw [versionedName_length] at hlen
  have : base.length = n.length + e.length := by
    rw [← hbase, List.length_append]
  by_cases hk : k = 0 <;> simp [hk] at hlen <;> omega

/-! ### Handler-level helper lemmas -/

theorem folderLoop_no_match {patsD : List (Str × List (VariantPattern × Str))}
    {filePath fn dirp ts : Str}
    (hnone : ∀ pats, checkFileMatch pats fn = none) :
    ∀ (folders : List FolderCfg) (fs : FS) (mv : List (Str × Str))
      (lg : List LogLine),
      folderLoop patsD filePath fn dirp ts folders fs mv lg
        = Except.ok (fs, mv, lg) := by
  intro folders
  induction folders with
  | nil => intro fs mv lg; rfl
  | cons fc rest ih =>
    intro fs mv lg
    simp only [folderLoop, hnone (dictGet patsD fc.path)]
    by_cases hd : (normpath dirp == normpath fc.path) = true
    · rw [if_pos hd]
      exact ih fs mv lg
    · rw [if_neg hd]
      exact ih fs mv lg

theorem processAfterDebounce_no_match {cfg : Config} {m : DebMap} {fs : FS}
    {p ts : Str}
    (hnone : ∀ pats, checkFileMatch pats (basename p) = none) :
    processAfterDebounce cfg m fs p ts = Except.ok (m, fs, [], []) := by
  unfold processAfterDebounce
  by_cases ht : ((basename p).head? == some '.')
      || endsWithL (str ".crdownload") (basename p)
      || endsWithL (str ".download") (basename p)
  · rw [if_pos ht]
  · rw [if_neg ht, folderLoop_no_match hnone]

theorem processAfterDebounce_fst {cfg : Config} {m : DebMap} {fs : FS}
    {p ts : Str} {r : DebMap × FS × List (Str × Str) × List LogLine}
    (h : processAfterDebounce cfg m fs p ts = Except.ok r) : r.1 = m := by
  unfold processAfterDebounce at h
  by_cases ht : ((basename p).head? == some '.')
      || endsWithL (str ".crdownload") (basename p)
      || endsWithL (str ".download") (basename p)
  · rw [if_pos ht] at h
    injection h with h
    rw [← h]
  · rw [if_neg ht] at h
    cases hfl : folderLoop (preparePatterns cfg.folders) p (basename p)
        (dirname p) ts cfg.folders fs [] [] with
    | error q => rw [hfl] at h; simp at h
    | ok r2 =>
      rw [hfl] at h
      obtain ⟨fs2, mv, lg⟩ := r2
      injection h with h
      rw [← h]

/-! ### Claim theorems -/

/-- Claim C10: for every filesystem event whose subject is a directory, the
`on_created` and `on_moved` handlers do nothing: the debounce map, the
filesystem, the move list and the log output are all unchanged/empty. -/
theorem claim10_directory_events_ignored (cfg : Config) (st : DebMap)
    (fs : FS) (ev : FsEvent) (now : ℚ) (ts : Str)
    (hdir : ev.isDirectory = true) :
    onCreated cfg st fs ev now ts = Except.ok (st, fs, [], [])
    ∧ onMoved cfg st fs ev now ts = Except.ok (st, fs, [], []) := by
  constructor <;> simp [onCreated, onMoved, hdir]

theorem claim10_witness :
    onCreated ⟨[⟨str "/d", [str "invoice.pdf"]⟩]⟩ [] [(str "/d/invoice.pdf", 0)]
        ⟨true, str "/d/sub", str "/d/sub"⟩ 0 (str "2024-05-01")
      = Except.ok ([], [(str "/d/invoice.pdf", 0)], [], [])
    ∧ onMoved ⟨[⟨str "/d", [str "invoice.pdf"]⟩]⟩ [] [(str "/d/invoice.pdf", 0)]
        ⟨true, str "/d/sub", str "/d/sub"⟩ 0 (str "2024-05-01")
      = Except.ok ([], [(str "/d/invoice.pdf", 0)], [], []) :=
  claim10_directory_events_ignored _ _ _ _ _ _ rfl

/-- Claim C6: a filename containing the version marker `_v\d{4}-\d{2}-\d{2}`
anywhere is never matched by the resolver, and an event for such a file
never changes the filesystem and never promotes (the handler returns with
the filesystem unchanged, no moves and no log lines). -/
theorem claim6_marker_never_reprocessed (fn : Str)
    (hm : hasVersionMarker fn = true) :
    (∀ pats, checkFileMatch pats fn = none)
    ∧ ∀ (cfg : Config) (st : DebMap) (fs : FS) (p : Str) (now : ℚ) (ts : Str),
        basename p = fn →
        ∃ st2, processFileEvent cfg st fs p now ts
          = Except.ok (st2, fs, [], []) := by
  have hnone : ∀ pats, checkFileMatch pats fn = none := by
    intro pats
    unfold checkFileMatch
    rw [if_pos hm]
  refine ⟨hnone, ?_⟩
  intro cfg st fs p now ts hbn
  unfold processFileEvent
  rcases hdc : debounceCheck st p now with ⟨_ | _, m⟩
  · exact ⟨m, rfl⟩
  · refine ⟨m, ?_⟩
    apply processAfterDebounce_no_match
    rw [hbn]
    exact hnone

theorem claim6_witness :
    checkFileMatch (patternsForBase (str "report.pdf"))
        (str "report_v2024-01-01.pdf") = none
    ∧ ∃ st2, processFileEvent ⟨[⟨str "/d", [str "report.pdf"]⟩]⟩ []
        [(str "/d/report.pdf", 0)] (str "/d/report_v2024-01-01.pdf") 0
        (str "2024-05-01") = Except.ok (st2, [(str "/d/report.pdf", 0)], [], []) :=
  ⟨(claim6_marker_never_reprocessed (str "report_v2024-01-01.pdf") (by decide)).1 _,
   (claim6_marker_never_reprocessed (str "report_v2024-01-01.pdf") (by decide)).2
     _ _ _ _ _ _ (by decide)⟩

/-- Claim C8: an event whose filename starts with `.` or ends with
`.crdownload` or `.download` is rejected before matching: the filesystem is
unchanged, no move happens and nothing is logged, whatever the
configuration. -/
theorem claim8_temp_files_never_promoted (fn : Str)
    (h : fn.head? = some '.' ∨ endsWithL (str ".crdownload") fn = true
      ∨ endsWithL (str ".download") fn = true) :
    ∀ (cfg : Config) (st : DebMap) (fs : FS) (p : Str) (now : ℚ) (ts : Str),
      basename p = fn →
      ∃ st2, processFileEvent cfg st fs p now ts
        = Except.ok (st2, fs, [], []) := by
  intro cfg st fs p now ts hbn
  unfold processFileEvent
  rcases hdc : debounceCheck st p now with ⟨_ | _, m⟩
  · exact ⟨m, rfl⟩
  · refine ⟨m, ?_⟩
    show processAfterDebounce cfg m fs p ts = Except.ok (m, fs, [], [])
    unfold processAfterDebounce
    have ht : (((basename p).head? == some '.')
        || endsWithL (str ".crdownload") (basename p)
        || endsWithL (str ".download") (basename p)) = true := by
      rw [hbn]
      rcases h with h | h | h <;> simp [h]
    rw [if_pos ht]

theorem claim8_witness :
    (∃ st2, processFileEvent ⟨[⟨str "/d", [str "invoice.pdf"]⟩]⟩ []
        [(str "/d/invoice.pdf", 0)] (str "/d/.DS_Store") 0 (str "2024-05-01")
      = Except.ok (st2, [(str "/d/invoice.pdf", 0)], [], []))
    ∧ ∃ st2, processFileEvent ⟨[⟨str "/d", [str "invoice.pdf"]⟩]⟩ []
        [(str "/d/invoice.pdf", 0)] (str "/d/partial.crdownload") 0
        (str "2024-05-01")
      = Except.ok (st2, [(str "/d/invoice.pdf", 0)], [], []) :=
  ⟨claim8_temp_files_never_promoted (str ".DS_Store") (Or.inl (by decide))
      _ _ _ _ _ _ (by decide),
   claim8_temp_files_never_promoted (str "partial.crdownload")
      (Or.inr (Or.inl (by decide))) _ _ _ _ _ _ (by decide)⟩

/-- Claim C9: for every finite filesystem the collision probe terminates
within `fs.length + 1` steps (the chosen candidate number is at most
`fs.length`), the name it settles on does not exist on disk, and every
lower-numbered candidate name is occupied — so it is the first free
candidate in the order no-counter, `_1`, `_2`, …. -/
theorem claim9_probe_first_free (fs : FS) (folder n ts e : Str) :
    fsExists fs (probeCand folder n ts e (chooseIdx fs folder n ts e)) = false
    ∧ ((List.range (chooseIdx fs folder n ts e)).all
        (fun j => fsExists fs (probeCand folder n ts e j))) = true
    ∧ chooseIdx fs folder n ts e ≤ fs.length := by
  obtain ⟨h1, h2, h3⟩ := chooseIdx_spec fs folder n ts e
  refine ⟨h1, ?_, h3⟩
  rw [List.all_eq_true]
  intro j hj
  exact h2 j (List.mem_range.mp hj)

/-- Claim C7: the debouncer returns `false` and leaves the map unchanged
when `now - lastProcessed[path] < 2`; otherwise it records
`lastProcessed[path] = now` and returns `true`; consequently a second event
for the identical path within the cooldown window changes nothing and
performs no promotion (the first event's outcome is the only one). -/
theorem claim7_debounce_drops_second_event :
    (∀ (m : DebMap) (p : Str) (now t : ℚ), mapLookup m p = some t →
      now - t < cooldown → debounceCheck m p now = (false, m))
    ∧ (∀ (m : DebMap) (p : Str) (now t : ℚ), mapLookup m p = some t →
      ¬ now - t < cooldown → debounceCheck m p now = (true, mapSet m p now))
    ∧ (∀ (m : DebMap) (p : Str) (now : ℚ), mapLookup m p = none →
      debounceCheck m p now = (true, mapSet m p now))
    ∧ ∀ (cfg : Config) (st st1 : DebMap) (fs fs1 : FS) (p tsa tsb : Str)
        (now now2 : ℚ) (mv : List (Str × Str)) (lg : List LogLine),
        mapLookup st p = none →
        processFileEvent cfg st fs p now tsa = Except.ok (st1, fs1, mv, lg) →
        now2 - now < cooldown →
        processFileEvent cfg st1 fs1 p now2 tsb
          = Except.ok (st1, fs1, [], []) := by
  refine ⟨?_, ?_, ?_, ?_⟩
  · intro m p now t hl hc
    simp [debounceCheck, hl, hc]
  · intro m p now t hl hc
    simp [debounceCheck, hl, hc]
  · intro m p now hl
    simp [debounceCheck, hl]
  · intro cfg st st1 fs fs1 p tsa tsb now now2 mv lg hl h1 hc
    have hdc : debounceCheck st p now = (true, mapSet st p now) := by
      simp [debounceCheck, hl]
    unfold processFileEvent at h1
    rw [hdc] at h1
    have hst1 : st1 = mapSet st p now := by
      have h2 := processAfterDebounce_fst h1
      simp at h2
      exact h2
    have hlk : mapLookup st1 p = some now := by
      rw [hst1]
      exact mapLookup_mapSet_self st p now
    simp [processFileEvent, debounceCheck, hlk, hc]

theorem claim7_witness :
    processFileEvent ⟨[⟨str "/d", [str "invoice.pdf"]⟩]⟩
        [(str "/d/invoice (1).pdf", (0 : ℚ))]
        [(str "/d/invoice.pdf", 1), (str "/d/invoice_v2024-05-01.pdf", 0)]
        (str "/d/invoice (1).pdf") 1 (str "2024-05-01")
      = Except.ok ([(str "/d/invoice (1).pdf", (0 : ℚ))],
          [(str "/d/invoice.pdf", 1), (str "/d/invoice_v2024-05-01.pdf", 0)],
          [], []) :=
  claim7_debounce_drops_second_event.2.2.2
    ⟨[⟨str "/d", [str "invoice.pdf"]⟩]⟩ []
    [(str "/d/invoice (1).pdf", (0 : ℚ))]
    [(str "/d/invoice.pdf", 0), (str "/d/invoice (1).pdf", 1)]
    [(str "/d/invoice.pdf", 1), (str "/d/invoice_v2024-05-01.pdf", 0)]
    (str "/d/invoice (1).pdf") (str "2024-05-01") (str "2024-05-01") 0 1
    [(str "/d/invoice.pdf", str "/d/invoice_v2024-05-01.pdf"),
     (str "/d/invoice (1).pdf", str "/d/invoice.pdf")]
    [LogLine.versioned (str "invoice.pdf") (str "invoice_v2024-05-01.pdf"),
     LogLine.updated (str "invoice (1).pdf") (str "invoice.pdf")]
    (by decide) (by rfl) (by norm_num [cooldown])

/-- Claim C3: the code's behaviour at a failing move. `version_files` wraps
no exception handler around `shutil.move`; with a tracked incumbent on disk
and an event for a matching variant whose file is gone by the time the move
runs (one realizable move failure), the error propagates out of
`process_file_event` — nothing is logged about the failure and the
exception escapes the handler, contradicting the claim that the failure is
logged and watching continues. -/
theorem claim3_move_failure_propagates :
    processFileEvent ⟨[⟨str "/d", [str "invoice.pdf"]⟩]⟩ []
        [(str "/d/invoice.pdf", 0)] (str "/d/invoice (1).pdf") 0
        (str "2024-05-01")
      = Except.error (str "/d/invoice (1).pdf") := by rfl

/-- Claim C2: versioned filenames are never reused — the archive name chosen
by the probe never already exists on disk — and running the same promotion
twice on the same date archives to `invoice_v2024-05-01.pdf` the first time
and to `invoice_v2024-05-01_1.pdf` the second time. -/
theorem claim2_versioned_names_never_reused :
    (∀ (fs : FS) (folder n ts e : Str),
      fsExists fs (probeCand folder n ts e (chooseIdx fs folder n ts e)) = false)
    ∧ versionFiles [(str "/d/invoice.pdf", 0), (str "/d/invoice (1).pdf", 1)]
        (str "/d") (str "/d/invoice (1).pdf") (str "invoice (1).pdf")
        (str "invoice.pdf") (str "2024-05-01")
      = Except.ok
          ([(str "/d/invoice.pdf", 1), (str "/d/invoice_v2024-05-01.pdf", 0)],
           [(str "/d/invoice.pdf", str "/d/invoice_v2024-05-01.pdf"),
            (str "/d/invoice (1).pdf", str "/d/invoice.pdf")],
           [LogLine.versioned (str "invoice.pdf") (str "invoice_v2024-05-01.pdf"),
            LogLine.updated (str "invoice (1).pdf") (str "invoice.pdf")])
    ∧ versionFiles
        [(str "/d/invoice.pdf", 1), (str "/d/invoice_v2024-05-01.pdf", 0),
         (str "/d/invoice (2).pdf", 2)]
        (str "/d") (str "/d/invoice (2).pdf") (str "invoice (2).pdf")
        (str "invoice.pdf") (str "2024-05-01")
      = Except.ok
          ([(str "/d/invoice.pdf", 2), (str "/d/invoice_v2024-05-01_1.pdf", 1),
            (str "/d/invoice_v2024-05-01.pdf", 0)],
           [(str "/d/invoice.pdf", str "/d/invoice_v2024-05-01_1.pdf"),
            (str "/d/invoice (2).pdf", str "/d/invoice.pdf")],
           [LogLine.versioned (str "invoice.pdf") (str "invoice_v2024-05-01_1.pdf"),
            LogLine.updated (str "invoice (2).pdf") (str "invoice.pdf")]) :=
  ⟨fun fs folder n ts e => (chooseIdx_spec fs folder n ts e).1, by rfl, by rfl⟩

/-- Claim C4 (counterexample): the resolver does NOT continue past a first
match whose base is byte-identical to the filename. With bases
`invoice.pdf` then `voice.pdf`, the filename `invoice.pdf` first matches the
catch-all pattern of `invoice.pdf` (identical base) and the loop `break`s:
the resolver returns `none` even though a later pattern (the catch-all of
`voice.pdf`) matches with a different base, which by the claim would be
returned. -/
theorem claim4_counterexample :
    checkFileMatch (patternsForFolder [str "invoice.pdf", str "voice.pdf"])
        (str "invoice.pdf") = none
    ∧ (VariantPattern.catchAll (str "voice") (str ".pdf"), str "voice.pdf")
        ∈ patternsForFolder [str "invoice.pdf", str "voice.pdf"]
    ∧ patMatches (VariantPattern.catchAll (str "voice") (str ".pdf"))
        (str "invoice.pdf") = true
    ∧ str "invoice.pdf" ≠ str "voice.pdf" :=
  ⟨by rfl, by decide, by decide, by decide⟩

/-- Claim C4 (amended): the resolver tests the folder's patterns in list
order and acts on the first pattern that matches; if the filename is not
byte-identical to that pattern's base it resolves to that base, and if it
is byte-identical it stops — subsequent patterns are not tested,
whatever they are. -/
theorem claim4_first_match_decides
    (pats1 pats2 : List (VariantPattern × Str)) (pb : VariantPattern × Str)
    (fn : Str) (hm : hasVersionMarker fn = false)
    (h1 : ∀ q ∈ pats1, patMatches q.1 fn = false)
    (hp : patMatches pb.1 fn = true) :
    checkFileMatch (pats1 ++ pb :: pats2) fn =
      if fn ≠ pb.2 then some pb.2 else none := by
  unfold checkFileMatch
  rw [if_neg (by simp [hm])]
  have hfind : (pats1 ++ pb :: pats2).find? (fun q => patMatches q.1 fn)
      = some pb := by
    rw [List.find?_append]
    have hnone : pats1.find? (fun q => patMatches q.1 fn) = none := by
      rw [List.find?_eq_none]
      intro q hq
      simp [h1 q hq]
    have hcons : List.find? (fun q => patMatches q.1 fn) (pb :: pats2)
        = some pb := List.find?_cons_of_pos pats2 hp
    rw [hnone, hcons]
    rfl
  rw [hfind]

theorem claim4_witness :
    checkFileMatch
      ([(VariantPattern.chromeNum (str "invoice.pdf"), str "invoice.pdf"),
        (VariantPattern.copySuffix (str "invoice") (str ".pdf"), str "invoice.pdf"),
        (VariantPattern.parenCounter (str "invoice") (str ".pdf"), str "invoice.pdf"),
        (VariantPattern.sepDigits (str "invoice") (str ".pdf"), str "invoice.pdf")]
       ++ (VariantPattern.catchAll (str "invoice") (str ".pdf"), str "invoice.pdf")
       :: [(VariantPattern.chromeNum (str "voice.pdf"), str "voice.pdf"),
           (VariantPattern.copySuffix (str "voice") (str ".pdf"), str "voice.pdf"),
           (VariantPattern.parenCounter (str "voice") (str ".pdf"), str "voice.pdf"),
           (VariantPattern.sepDigits (str "voice") (str ".pdf"), str "voice.pdf"),
           (VariantPattern.catchAll (str "voice") (str ".pdf"), str "voice.pdf")])
      (str "invoice.pdf") = none := by
  have := claim4_first_match_decides
    [(VariantPattern.chromeNum (str "invoice.pdf"), str "invoice.pdf"),
     (VariantPattern.copySuffix (str "invoice") (str ".pdf"), str "invoice.pdf"),
     (VariantPattern.parenCounter (str "invoice") (str ".pdf"), str "invoice.pdf"),
     (VariantPattern.sepDigits (str "invoice") (str ".pdf"), str "invoice.pdf")]
    [(VariantPattern.chromeNum (str "voice.pdf"), str "voice.pdf"),
     (VariantPattern.copySuffix (str "voice") (str ".pdf"), str "voice.pdf"),
     (VariantPattern.parenCounter (str "voice") (str ".pdf"), str "voice.pdf"),
     (VariantPattern.sepDigits (str "voice") (str ".pdf"), str "voice.pdf"),
     (VariantPattern.catchAll (str "voice") (str ".pdf"), str "voice.pdf")]
    (VariantPattern.catchAll (str "invoice") (str ".pdf"), str "invoice.pdf")
    (str "invoice.pdf") (by decide) (by decide) (by decide)
  simpa using this

/-- Claim C1: when a file already exists at the base path, `version_files`
first renames it to a fresh archive name that does not exist on disk, and
only then moves the incoming file onto the base path — archive-then-promote
(the move list records the order). Neither move overwrites an existing
file: the archive destination is free in the starting state, and the base
path is absent in the state between the two moves; both contents survive,
the old one under the archive name and the new one at the base path. -/
theorem claim1_archive_then_promote
    (fs : FS) (folder filePath filename base ts : Str) (c0 c1 : Nat)
    (h0 : fsLookup fs (pjoin folder base) = some c0)
    (h1 : fsLookup fs filePath = some c1)
    (hne : filePath ≠ pjoin folder base) :
    fsExists fs (archCand fs folder base ts) = false
    ∧ fsMove fs (pjoin folder base) (archCand fs folder base ts)
        = Except.ok (afterArchive fs folder base ts c0)
    ∧ fsExists (afterArchive fs folder base ts c0) (pjoin folder base) = false
    ∧ versionFiles fs folder filePath filename base ts
        = Except.ok (afterPromote fs folder base ts filePath c0 c1,
            [(pjoin folder base, archCand fs folder base ts),
             (filePath, pjoin folder base)],
            [LogLine.versioned base
              (versionedName (splitext base).1 ts (splitext base).2
                (chooseIdx fs folder (splitext base).1 ts (splitext base).2)),
             LogLine.updated filename base])
    ∧ fsLookup (afterPromote fs folder base ts filePath c0 c1)
        (archCand fs folder base ts) = some c0
    ∧ fsLookup (afterPromote fs folder base ts filePath c0 c1)
        (pjoin folder base) = some c1 := by
  have hfree : fsExists fs (archCand fs folder base ts) = false :=
    (chooseIdx_spec fs folder (splitext base).1 ts (splitext base).2).1
  have hvb : archCand fs folder base ts ≠ pjoin folder base :=
    probeCand_ne_base folder base ts _
  have hbase : fsExists fs (pjoin folder base) = true := fsExists_of_fsLookup h0
  have hfileEx : fsExists fs filePath = true := fsExists_of_fsLookup h1
  have hvf : archCand fs folder base ts ≠ filePath := by
    intro h
    rw [h, hfileEx] at hfree
    simp at hfree
  have move1 : fsMove fs (pjoin folder base) (archCand fs folder base ts)
      = Except.ok (afterArchive fs folder base ts c0) := by
    unfold fsMove
    rw [h0]
    rfl
  have hAbp : fsExists (afterArchive fs folder base ts c0)
      (pjoin folder base) = false := by
    unfold afterArchive
    rw [fsExists_cons_ne _ _ hvb]
    exact fsExists_fsErase_of_false _ (fsExists_fsErase_self fs _)
  have lookupAfile : fsLookup (afterArchive fs folder base ts c0) filePath
      = some c1 := by
    unfold afterArchive
    rw [fsLookup_cons_ne _ _ hvf]
    rw [fsLookup_fsErase_ne (fun h => hvf h.symm)]
    rw [fsLookup_fsErase_ne hne]
    exact h1
  have move2 : fsMove (afterArchive fs folder base ts c0) filePath
      (pjoin folder base)
      = Except.ok (afterPromote fs folder base ts filePath c0 c1) := by
    unfold fsMove
    rw [lookupAfile]
    rfl
  have hmain : versionFiles fs folder filePath filename base ts
      = Except.ok (afterPromote fs folder base ts filePath c0 c1,
          [(pjoin folder base, archCand fs folder base ts),
           (filePath, pjoin folder base)],
          [LogLine.versioned base
            (versionedName (splitext base).1 ts (splitext base).2
              (chooseIdx fs folder (splitext base).1 ts (splitext base).2)),
           LogLine.updated filename base]) := by
    simp only [versionFiles]
    rw [if_pos hbase]
    rw [show pjoin folder (versionedName (splitext base).1 ts (splitext base).2
          (chooseIdx fs folder (splitext base).1 ts (splitext base).2))
        = archCand fs folder base ts from rfl]
    simp only [move1, move2]
  refine ⟨hfree, move1, hAbp, hmain, ?_, ?_⟩
  · unfold afterPromote
    rw [fsLookup_cons_ne _ _ (fun h => hvb h.symm)]
    rw [fsLookup_fsErase_ne hvb]
    rw [fsLookup_fsErase_ne hvf]
    unfold afterArchive
    exact fsLookup_cons_self _ _ _
  · unfold afterPromote
    exact fsLookup_cons_self _ _ _

theorem claim1_witness :
    fsExists [(str "/d/invoice.pdf", 0), (str "/d/invoice (1).pdf", 1)]
        (archCand [(str "/d/invoice.pdf", 0), (str "/d/invoice (1).pdf", 1)]
          (str "/d") (str "invoice.pdf") (str "2024-05-01")) = false
    ∧ fsMove [(str "/d/invoice.pdf", 0), (str "/d/invoice (1).pdf", 1)]
        (pjoin (str "/d") (str "invoice.pdf"))
        (archCand [(str "/d/invoice.pdf", 0), (str "/d/invoice (1).pdf", 1)]
          (str "/d") (str "invoice.pdf") (str "2024-05-01"))
        = Except.ok (afterArchive
            [(str "/d/invoice.pdf", 0), (str "/d/invoice (1).pdf", 1)]
            (str "/d") (str "invoice.pdf") (str "2024-05-01") 0)
    ∧ fsExists (afterArchive
          [(str "/d/invoice.pdf", 0), (str "/d/invoice (1).pdf", 1)]
          (str "/d") (str "invoice.pdf") (str "2024-05-01") 0)
        (pjoin (str "/d") (str "invoice.pdf")) = false
    ∧ versionFiles [(str "/d/invoice.pdf", 0), (str "/d/invoice (1).pdf", 1)]
        (str "/d") (str "/d/invoice (1).pdf") (str "invoice (1).pdf")
        (str "invoice.pdf") (str "2024-05-01")
        = Except.ok (afterPromote
            [(str "/d/invoice.pdf", 0), (str "/d/invoice (1).pdf", 1)]
            (str "/d") (str "invoice.pdf") (str "2024-05-01")
            (str "/d/invoice (1).pdf") 0 1,
            [(pjoin (str "/d") (str "invoice.pdf"),
              archCand [(str "/d/invoice.pdf", 0), (str "/d/invoice (1).pdf", 1)]
                (str "/d") (str "invoice.pdf") (str "2024-05-01")),
             (str "/d/invoice (1).pdf", pjoin (str "/d") (str "invoice.pdf"))],
            [LogLine.versioned (str "invoice.pdf")
              (versionedName (splitext (str "invoice.pdf")).1 (str "2024-05-01")
                (splitext (str "invoice.pdf")).2
                (chooseIdx [(str "/d/invoice.pdf", 0), (str "/d/invoice (1).pdf", 1)]
                  (str "/d") (splitext (str "invoice.pdf")).1 (str "2024-05-01")
                  (splitext (str "invoice.pdf")).2)),
             LogLine.updated (str "invoice (1).pdf") (str "invoice.pdf")])
    ∧ fsLookup (afterPromote
          [(str "/d/invoice.pdf", 0), (str "/d/invoice (1).pdf", 1)]
          (str "/d") (str "invoice.pdf") (str "2024-05-01")
          (str "/d/invoice (1).pdf") 0 1)
        (archCand [(str "/d/invoice.pdf", 0), (str "/d/invoice (1).pdf", 1)]
          (str "/d") (str "invoice.pdf") (str "2024-05-01")) = some 0
    ∧ fsLookup (afterPromote
          [(str "/d/invoice.pdf", 0), (str "/d/invoice (1).pdf", 1)]
          (str "/d") (str "invoice.pdf") (str "2024-05-01")
          (str "/d/invoice (1).pdf") 0 1)
        (pjoin (str "/d") (str "invoice.pdf")) = some 1 :=
  claim1_archive_then_promote
    [(str "/d/invoice.pdf", 0), (str "/d/invoice (1).pdf", 1)]
    (str "/d") (str "/d/invoice (1).pdf") (str "invoice (1).pdf")
    (str "invoice.pdf") (str "2024-05-01") 0 1 (by rfl) (by rfl) (by decide)

theorem splitsAny_intro (l : Str) (p : Str → Str → Bool) (i : Nat)
    (hi : i ≤ l.length) (h : p (l.take i) (l.drop i) = true) :
    splitsAny l p = true := by
  rw [splitsAny, List.any_eq_true]
  exact ⟨i, List.mem_range.mpr (by omega), h⟩

theorem matchChromeNum_hit (base : Str) :
    matchChromeNum base ('(' :: '1' :: ')' :: base) = true := by
  unfold matchChromeNum
  apply splitsAny_intro _ _ 1 (by simp)
  simp
  decide

theorem matchCopySuffix_hit (n e : Str) :
    matchCopySuffix n e (n ++ str " copy" ++ e) = true := by
  unfold matchCopySuffix
  have h1 : (n ++ str " copy" ++ e).take n.length = n := by
    rw [List.append_assoc]
    exact List.take_left n _
  have h2 : (n ++ str " copy" ++ e).drop n.length = str " copy" ++ e := by
    rw [List.append_assoc]
    exact List.drop_left n _
  rw [h1, h2]
  rw [show str " copy" ++ e = ' ' :: 'c' :: 'o' :: 'p' :: 'y' :: e from rfl]
  simp only [beq_self_eq_true, Bool.true_and, Bool.true_or, Bool.or_self]
  apply splitsAny_intro _ _ 0 (by omega)
  simp

theorem matchCopySuffix_hit2 (n e : Str) :
    matchCopySuffix n e (n ++ str "_copy2" ++ e) = true := by
  unfold matchCopySuffix
  have h1 : (n ++ str "_copy2" ++ e).take n.length = n := by
    rw [List.append_assoc]
    exact List.take_left n _
  have h2 : (n ++ str "_copy2" ++ e).drop n.length = str "_copy2" ++ e := by
    rw [List.append_assoc]
    exact List.drop_left n _
  rw [h1, h2]
  rw [show str "_copy2" ++ e = '_' :: 'c' :: 'o' :: 'p' :: 'y' :: '2' :: e from rfl]
  simp only [beq_self_eq_true, Bool.true_and, Bool.true_or, Bool.or_true]
  apply splitsAny_intro _ _ 1 (by simp)
  simp
  decide

theorem matchParenCounter_hit (n e : Str) :
    matchParenCounter n e (n ++ str " (3)" ++ e) = true := by
  unfold matchParenCounter
  have h1 : (n ++ str " (3)" ++ e).take n.length = n := by
    rw [List.append_assoc]
    exact List.take_left n _
  have h2 : (n ++ str " (3)" ++ e).drop n.length = str " (3)" ++ e := by
    rw [List.append_assoc]
    exact List.drop_left n _
  rw [h1, h2]
  rw [show str " (3)" ++ e = ' ' :: '(' :: '3' :: ')' :: e from rfl]
  simp only [beq_self_eq_true, Bool.true_and]
  apply splitsAny_intro _ _ 1 (by simp)
  simp
  decide

theorem matchSepDigits_hit (n e : Str) :
    matchSepDigits n e (n ++ str "_7" ++ e) = true := by
  unfold matchSepDigits
  have h1 : (n ++ str "_7" ++ e).take n.length = n := by
    rw [List.append_assoc]
    exact List.take_left n _
  have h2 : (n ++ str "_7" ++ e).drop n.length = str "_7" ++ e := by
    rw [List.append_assoc]
    exact List.drop_left n _
  rw [h1, h2]
  rw [show str "_7" ++ e = '_' :: '7' :: e from rfl]
  simp only [beq_self_eq_true, Bool.true_and, Bool.true_or, Bool.or_true]
  apply splitsAny_intro _ _ 1 (by simp)
  simp
  decide

theorem patternsForBase_snd (base : Str) :
    ∀ pb ∈ patternsForBase base, pb.2 = base := by
  intro pb hm
  simp [patternsForBase] at hm
  rcases hm with rfl | rfl | rfl | rfl | rfl <;> rfl

theorem checkFileMatch_some_of {pats : List (VariantPattern × Str)}
    {base fn : Str} (hall : ∀ pb ∈ pats, pb.2 = base)
    (hm : hasVersionMarker fn = false)
    (hex : ∃ pb ∈ pats, patMatches pb.1 fn = true) (hne : fn ≠ base) :
    checkFileMatch pats fn = some base := by
  unfold checkFileMatch
  rw [if_neg (by simp [hm])]
  cases hfind : pats.find? (fun pb => patMatches pb.1 fn) with
  | none =>
    rw [List.find?_eq_none] at hfind
    obtain ⟨pb, hmem, hpm⟩ := hex
    exact absurd hpm (hfind pb hmem)
  | some pb =>
    have hb := hall pb (List.mem_of_find?_eq_some hfind)
    simp [hb, hne]

theorem checkFileMatch_self {pats : List (VariantPattern × Str)} {base : Str}
    (hall : ∀ pb ∈ pats, pb.2 = base) :
    checkFileMatch pats base = none := by
  unfold checkFileMatch
  by_cases hm : hasVersionMarker base = true
  · rw [if_pos hm]
  · rw [if_neg hm]
    cases hfind : pats.find? (fun pb => patMatches pb.1 base) with
    | none => rfl
    | some pb =>
      have hb := hall pb (List.mem_of_find?_eq_some hfind)
      simp [hb]

/-- Claim C5 (counterexample): the claim fails for a configured base
filename that itself carries a version marker. For base
`a_v2024-01-01.pdf` the variant `(1)a_v2024-01-01.pdf` matches the compiled
Chrome-prefix pattern, yet the resolver returns `none` (the marker check
rejects it first), so it never triggers promotion. -/
theorem claim5_counterexample :
    patMatches (VariantPattern.chromeNum (str "a_v2024-01-01.pdf"))
        (str "(1)a_v2024-01-01.pdf") = true
    ∧ (VariantPattern.chromeNum (str "a_v2024-01-01.pdf"),
        str "a_v2024-01-01.pdf") ∈ patternsForBase (str "a_v2024-01-01.pdf")
    ∧ checkFileMatch (patternsForBase (str "a_v2024-01-01.pdf"))
        (str "(1)a_v2024-01-01.pdf") = none :=
  ⟨by decide, by decide, by rfl⟩

/-- Claim C5 (amended): for every configured base filename `f.ext` whose
five standard variant spellings carry no version marker, each of
`(1)f.ext`, `f copy.ext`, `f_copy2.ext`, `f (3).ext`, `f_7.ext` resolves
through the base's compiled patterns to `f.ext` and triggers promotion,
while the exact base filename itself never does (idempotence after a
promotion). -/
theorem claim5_variants_resolve (base n e : Str)
    (hsplit : splitext base = (n, e))
    (hm1 : hasVersionMarker ('(' :: '1' :: ')' :: base) = false)
    (hm2 : hasVersionMarker (n ++ str " copy" ++ e) = false)
    (hm3 : hasVersionMarker (n ++ str "_copy2" ++ e) = false)
    (hm4 : hasVersionMarker (n ++ str " (3)" ++ e) = false)
    (hm5 : hasVersionMarker (n ++ str "_7" ++ e) = false) :
    checkFileMatch (patternsForBase base) ('(' :: '1' :: ')' :: base) = some base
    ∧ checkFileMatch (patternsForBase base) (n ++ str " copy" ++ e) = some base
    ∧ checkFileMatch (patternsForBase base) (n ++ str "_copy2" ++ e) = some base
    ∧ checkFileMatch (patternsForBase base) (n ++ str " (3)" ++ e) = some base
    ∧ checkFileMatch (patternsForBase base) (n ++ str "_7" ++ e) = some base
    ∧ checkFileMatch (patternsForBase base) base = none := by
  have hbe : n ++ e = base := by
    have := splitext_append base
    rw [hsplit] at this
    exact this
  have hall := patternsForBase_snd base
  have hmem : ∀ pat : VariantPattern, (pat, base) ∈ patternsForBase base →
      (pat, base) ∈ patternsForBase base := fun _ h => h
  have hlen : base.length = n.length + e.length := by
    rw [← hbe, List.length_append]
  refine ⟨?_, ?_, ?_, ?_, ?_, checkFileMatch_self hall⟩
  · refine checkFileMatch_some_of hall hm1
      ⟨(VariantPattern.chromeNum base, base), by simp [patternsForBase],
        matchChromeNum_hit base⟩ ?_
    intro h
    have hlh := congrArg List.length h
    simp only [List.length_cons] at hlh
    omega
  · refine checkFileMatch_some_of hall hm2
      ⟨(VariantPattern.copySuffix n e, base), by simp [patternsForBase, hsplit],
        matchCopySuffix_hit n e⟩ ?_
    intro h
    have hlh := congrArg List.length h
    rw [List.length_append, List.length_append,
      show (str " copy").length = 5 from rfl] at hlh
    omega
  · refine checkFileMatch_some_of hall hm3
      ⟨(VariantPattern.copySuffix n e, base), by simp [patternsForBase, hsplit],
        matchCopySuffix_hit2 n e⟩ ?_
    intro h
    have hlh := congrArg List.length h
    rw [List.length_append, List.length_append,
      show (str "_copy2").length = 6 from rfl] at hlh
    omega
  · refine checkFileMatch_some_of hall hm4
      ⟨(VariantPattern.parenCounter n e, base), by simp [patternsForBase, hsplit],
        matchParenCounter_hit n e⟩ ?_
    intro h
    have hlh := congrArg List.length h
    rw [List.length_append, List.length_append,
      show (str " (3)").length = 4 from rfl] at hlh
    omega
  · refine checkFileMatch_some_of hall hm5
      ⟨(VariantPattern.sepDigits n e, base), by simp [patternsForBase, hsplit],
        matchSepDigits_hit n e⟩ ?_
    intro h
    have hlh := congrArg List.length h
    rw [List.length_append, List.length_append,
      show (str "_7").length = 2 from rfl] at hlh
    omega

theorem claim5_witness :
    checkFileMatch (patternsForBase (str "invoice.pdf"))
        (str "(1)invoice.pdf") = some (str "invoice.pdf")
    ∧ checkFileMatch (patternsForBase (str "invoice.pdf"))
        (str "invoice copy.pdf") = some (str "invoice.pdf")
    ∧ checkFileMatch (patternsForBase (str "invoice.pdf"))
        (str "invoice_copy2.pdf") = some (str "invoice.pdf")
    ∧ checkFileMatch (patternsForBase (str "invoice.pdf"))
        (str "invoice (3).pdf") = some (str "invoice.pdf")
    ∧ checkFileMatch (patternsForBase (str "invoice.pdf"))
        (str "invoice_7.pdf") = some (str "invoice.pdf")
    ∧ checkFileMatch (patternsForBase (str "invoice.pdf"))
        (str "invoice.pdf") = none :=
  claim5_variants_resolve (str "invoice.pdf") (str "invoice") (str ".pdf")
    (by rfl) (by decide) (by decide) (by decide) (by decide) (by decide)
